import Mathlib

/-!
Verification development for the `Imaging_pipelines` repository
(`main_pipeline.py`, `Sort_files.py`, `quality_check.py`, `tel_params/MMIRS.py`).

The Python source is shallowly embedded: Python floats are modelled by exact
rationals (with real-valued square roots where the source takes `np.sqrt` /
`np.std`), fallible code (uncaught `IndexError`) is modelled by `Option`,
and the statistics (`np.median`, `np.std`) are translated operation by
operation.  Each definition's doc comment names the source lines it embeds.
-/

namespace ImagingPipelines

/-- One aligned science frame as seen by `quality_check`
(`quality_check.py` lines 36-46 compute, per image, a FWHM value and an
elongation value; line 90 reads an observation time from the header via
`tel.time_format`).  The delegate catalog statistics that produce the two
metrics are outside the core, so a frame is modelled by its two metric
values and its observation time. -/
structure Frame where
  fwhm : ℚ
  elong : ℚ
  time : ℚ
deriving DecidableEq, Repr

/-- Python's `sorted` on rationals (ascending).  Any correct sort of a
list of rationals yields the same list, so Mathlib's structural
`insertionSort` is used so that terms reduce in the kernel. -/
def pySorted (l : List ℚ) : List ℚ :=
  l.insertionSort (· ≤ ·)

/-- Python's `sorted(..., reverse=True)` on rationals (descending), used at
`quality_check.py` lines 69 and 71. -/
def pySortedDesc (l : List ℚ) : List ℚ :=
  l.insertionSort (fun a b => b ≤ a)

/-- `np.median` of a list of values: sort ascending, take the middle
element for odd length, the mean of the two middle elements for even
length (used at `quality_check.py` lines 49 and 52). -/
def npMedian (l : List ℚ) : ℚ :=
  let s := pySorted l
  if l.length % 2 = 1 then s.getD (l.length / 2) 0
  else (s.getD (l.length / 2 - 1) 0 + s.getD (l.length / 2) 0) / 2

/-- The arithmetic mean, as used inside `np.std`. -/
def npMean (l : List ℚ) : ℚ :=
  l.sum / l.length

/-- The population variance (`np.std(...)**2`, `ddof=0`), i.e. the square
of the standard deviation computed at `quality_check.py` lines 50 and 53. -/
def npVar (l : List ℚ) : ℚ :=
  ((l.map fun x => (x - npMean l) ^ 2).sum) / l.length

/-- The standard deviation `np.std` (`quality_check.py` lines 50 and 53).
Exact, hence real-valued. -/
noncomputable def npStd (l : List ℚ) : ℝ :=
  Real.sqrt (npVar l)

/-- The 3-sigma outlier test of `quality_check.py` lines 59-60:
`v > med + 3*std`.  Since `std = sqrt var` is irrational in general, the
test is stated by the equivalent rational comparison
`v > med  ∧  (v - med)^2 > 9*var`; the lemma `isOutlier_iff_sqrt` below proves
this equal to the source's `v > med + 3*std` formulation. -/
def isOutlier (v med var : ℚ) : Bool :=
  decide (med < v) && decide (9 * var < (v - med) ^ 2)

/-- CPython list indexing `l[i]` for `int` indices: nonnegative indices
from the front, negative indices from the back, `none` models an uncaught
`IndexError`.  Used for `fwhm_sorted[ten_percent-1]` and
`elong_sorted[ten_percent-1]` at `quality_check.py` lines 70 and 72, where
`ten_percent-1` is `-1` whenever `ten_percent == 0`. -/
def pyIndex (l : List ℚ) (i : ℤ) : Option ℚ :=
  if 0 ≤ i then l.get? i.toNat
  else if 0 ≤ i + l.length then l.get? (i + l.length).toNat
  else none

/-- `ten_percent = int(len(aligned_images)*0.1)` (`quality_check.py`
line 65): truncating ten percent of the frame count. -/
def tenPercent (n : ℕ) : ℕ :=
  n / 10

/-- The per-frame FWHM list (`quality_check.py` lines 34-44, 57). -/
def fwhmList (frames : List Frame) : List ℚ :=
  frames.map Frame.fwhm

/-- The per-frame elongation list (`quality_check.py` lines 34-44, 58). -/
def elongList (frames : List Frame) : List ℚ :=
  frames.map Frame.elong

/-- `fwhm_3sigma_cut = fwhm[fwhm > fwhm_med+3*fwhm_std]`
(`quality_check.py` line 59). -/
def fwhmOutliers (frames : List Frame) : List ℚ :=
  (fwhmList frames).filter fun v =>
    isOutlier v (npMedian (fwhmList frames)) (npVar (fwhmList frames))

/-- `elong_3sigma_cut = elong[elong > elong_med+3*elong_std]`
(`quality_check.py` line 60). -/
def elongOutliers (frames : List Frame) : List ℚ :=
  (elongList frames).filter fun v =>
    isOutlier v (npMedian (elongList frames)) (npVar (elongList frames))

/-- The pair of rejection thresholds chosen at `quality_check.py`
lines 66-77: either both thresholds are taken from the descending-sorted
outlier lists at Python index `ten_percent - 1` (`relaxed`), or both are
the original `median + 3*std` thresholds, represented by their
median/variance data (`threeSigma`). -/
inductive Cuts where
  | relaxed (fwhmCut elongCut : ℚ)
  | threeSigma (fwhmMed fwhmVar elongMed elongVar : ℚ)
deriving DecidableEq, Repr

/-- `quality_check.py` lines 59-77: compute the outlier counts and choose
the cut pair.  `none` models the uncaught `IndexError` raised at line 70
or 72 when a sorted outlier list has no element at Python index
`ten_percent - 1`. -/
def cutsOf (frames : List Frame) : Option Cuts :=
  let nFwhm := (fwhmOutliers frames).length
  let nElong := (elongOutliers frames).length
  let tp := tenPercent frames.length
  if nFwhm > tp ∨ nElong > tp then
    match pyIndex (pySortedDesc (fwhmOutliers frames)) ((tp : ℤ) - 1),
        pyIndex (pySortedDesc (elongOutliers frames)) ((tp : ℤ) - 1) with
    | some fc, some ec => some (Cuts.relaxed fc ec)
    | _, _ => none
  else
    some (Cuts.threeSigma (npMedian (fwhmList frames)) (npVar (fwhmList frames))
      (npMedian (elongList frames)) (npVar (elongList frames)))

/-- The retention test of `quality_check.py` lines 80-85: a frame is kept
unless `fwhm[i] > fwhm_cut or elong[i] > elong_cut`, where each cut is the
one selected by `cutsOf` (a `threeSigma` cut is the comparison against
`median + 3*std`, stated through `isOutlier`). -/
def keepFrame (c : Cuts) (fr : Frame) : Bool :=
  match c with
  | Cuts.relaxed fc ec => !(decide (fc < fr.fwhm) || decide (ec < fr.elong))
  | Cuts.threeSigma fm fv em ev => !(isOutlier fr.fwhm fm fv || isOutlier fr.elong em ev)

/-- `quality_check.py` lines 87-93: sort the observation times of the
stacking frames and return `sorted_times[0] + (sorted_times[-1] -
sorted_times[0])/2`.  `none` models the `IndexError` on an empty list. -/
def midTime (times : List ℚ) : Option ℚ :=
  match (pySorted times).head?, (pySorted times).getLast? with
  | some t0, some t1 => some (t0 + (t1 - t0) / 2)
  | _, _ => none

/-- `quality_check` (`quality_check.py` lines 49-98, after the per-frame
metrics have been computed): choose the cuts, filter the frames in their
original order, compute the mid-time of the surviving frames, and return
the pair `(stacking frames, mid-time)` — the function returns exactly
these two values (line 98). -/
def quality_check (frames : List Frame) : Option (List Frame × ℚ) :=
  (cutsOf frames).bind fun c =>
    let stacking := frames.filter (keepFrame c)
    (midTime (stacking.map Frame.time)).map fun mid => (stacking, mid)

/-! ## Stack metadata (`main_pipeline.py` lines 362-370)

After `stacking_data, mid_time, total_time = quality_check.quality_check(
aligned_images, aligned_data, telescope, log)` (line 362), the stack header
records `RDNOISE = tel.rdnoise(sci_med.header)/np.sqrt(len(aligned_images))`
(line 369) and `NFILES = len(aligned_images)` (line 370).  Both use the
length of `aligned_images`, the list handed *into* the quality gate, not
the length of `stacking_data`, the list that survived it. -/

/-- The `RDNOISE` header value of the stack (`main_pipeline.py` line 369):
the instrument base read noise divided by the square root of the number of
*aligned* images. -/
noncomputable def stackRdnoise (baseRdnoise : ℚ) (alignedImages : List Frame) : ℝ :=
  (baseRdnoise : ℝ) / Real.sqrt (alignedImages.length : ℝ)

/-- The `NFILES` header value of the stack (`main_pipeline.py` line 370):
the number of *aligned* images. -/
def stackNFiles (alignedImages : List Frame) : ℕ :=
  alignedImages.length

/-! ## File classification (`Sort_files.py` lines 18-163)

Python strings are modelled as `List Char`.  The instrument predicate sets
(`Sort_files.py` lines 96, 105, 126, 131, 140: `len(keyword) != 0 and
np.all([...])` over header keyword/value pairs) are delegate header reads,
so each predicate's outcome is a field of the abstract header record. -/

/-- A Python string. -/
abbrev PyStr := List Char

/-- Python's `str.split(sep)` for a single-character separator
(used as `cal.split('_')` at `main_pipeline.py` lines 122-123). -/
def pySplit (sep : Char) : PyStr → List PyStr
  | [] => [[]]
  | c :: rest =>
    match pySplit sep rest with
    | [] => []
    | w :: ws => if c = sep then [] :: w :: ws else (c :: w) :: ws

/-- Python's substring test `needle in hay`
(used as `'BIAS' in cal` at `main_pipeline.py` line 119). -/
def pyContains (needle : PyStr) : PyStr → Bool
  | [] => needle.isEmpty
  | c :: rest => needle.isPrefixOf (c :: rest) || pyContains needle rest

/-- What `sort_files` reads from one raw file (`Sort_files.py` lines
84-95): whether the header extension `file_open[ext]` is readable
(line 86; an `IndexError` there classifies the file `BAD`), the outcomes
of the five instrument predicate sets (lines 96, 105, 126, 131, 140, with
an empty keyword list making the flat/bias/dark predicates `False`), and
the target/filter/exposure/time header values (lines 92-94, 118). -/
structure RawHeader where
  extReadable : Bool
  flatMatch : Bool
  scienceMatch : Bool
  biasMatch : Bool
  darkMatch : Bool
  specMatch : Bool
  target : PyStr
  fil : PyStr
  exp : PyStr
  obsTime : ℚ
deriving DecidableEq, Repr

/-- The classification outcomes of `Sort_files.py` lines 96-149. -/
inductive FileType where
  | flat
  | science
  | bias
  | dark
  | spectro
  | bad
deriving DecidableEq, Repr

/-- First-match-wins classification of a frame whose header extension was
readable (`Sort_files.py` lines 96-149: FLAT, then SCIENCE, then BIAS,
then DARK, then SPEC, else BAD). -/
def classify (h : RawHeader) : FileType :=
  if h.flatMatch then FileType.flat
  else if h.scienceMatch then FileType.science
  else if h.biasMatch then FileType.bias
  else if h.darkMatch then FileType.dark
  else if h.specMatch then FileType.spectro
  else FileType.bad

/-- One row of the manifest table (`Sort_files.py` lines 81, 150: columns
Target, Filter, Exp, Type, Time; the File column is the destination path
string, a pure rename of the input path, and is omitted here).  The Time
cell is `None` except for SCIENCE frames (lines 95, 118). -/
structure ManifestRow where
  target : PyStr
  fil : PyStr
  exp : PyStr
  ftype : FileType
  obsTime : Option ℚ
deriving DecidableEq, Repr

/-- The manifest rows produced by one `sort_files` scan (`Sort_files.py`
lines 83-151).  A file whose header extension read raises `IndexError`
hits `continue` at line 91, which skips the `file_table.add_row` call at
line 150, so that file contributes no row; every other file contributes
exactly one row, with the target whitespace-stripped (line 92) and a null
time for non-science types.  The table is written once, after the loop
(line 151), so the persisted manifest is exactly this list. -/
def sortFilesRows (files : List RawHeader) : List ManifestRow :=
  files.filterMap fun h =>
    if h.extReadable then
      some ⟨h.target.filter (fun c => c ≠ ' '), h.fil, h.exp, classify h,
        if classify h = FileType.science then some h.obsTime else none⟩
    else none

/-- The calibration-dictionary keys built by `sort_files` (`Sort_files.py`
lines 72, 96-139), in insertion order: `cal_list` starts as
`\x7b'BIAS':[]\x7d`, each FLAT frame ensures a key `'FLAT_'+fil`, each
DARK frame ensures a key `'DARK_'+exp`; science, spectroscopic and bad
frames add no calibration key, and BIAS frames are appended under the
pre-existing `'BIAS'` key.  `calKeyStep` is the per-file update of the
key list. -/
def calKeyStep (keys : List PyStr) (h : RawHeader) : List PyStr :=
  match classify h with
  | FileType.flat =>
    if (['F', 'L', 'A', 'T', '_'] ++ h.fil) ∈ keys then keys
    else keys ++ [['F', 'L', 'A', 'T', '_'] ++ h.fil]
  | FileType.dark =>
    if (['D', 'A', 'R', 'K', '_'] ++ h.exp) ∈ keys then keys
    else keys ++ [['D', 'A', 'R', 'K', '_'] ++ h.exp]
  | _ => keys

/-- See `sortFilesCalKeys`; `calKeyStep` is the per-file key update. -/
def sortFilesCalKeys (files : List RawHeader) : List PyStr :=
  (files.filter fun h => h.extReadable).foldl calKeyStep [['B', 'I', 'A', 'S']]

/-! ## The bias-calibration block (`main_pipeline.py` lines 116-141) -/

/-- How the bias block of `main_pipeline.py` lines 116-141 terminates. -/
inductive BiasOutcome where
  | ok
  | indexError
  | exitNoBias
deriving DecidableEq, Repr

/-- The loop of `main_pipeline.py` lines 117-137 followed by the check at
lines 138-141, run over the `cal_list` keys in order with accumulator
`bias_num`: a key containing the substring `'BIAS'` (line 119) increments
`bias_num` and evaluates `amp = cal.split('_')[1]` and
`binn = cal.split('_')[2]` (lines 122-123), which raises an uncaught
`IndexError` when the key has fewer than three `'_'`-separated parts; the
master-bias skip/build work at lines 124-137 is delegate I/O and aborts
nothing.  After the loop, `bias_num == 0` exits the process with code -1
(lines 138-141). -/
def biasScan : List PyStr → ℕ → BiasOutcome
  | [], n => if n = 0 then BiasOutcome.exitNoBias else BiasOutcome.ok
  | k :: rest, n =>
    if pyContains ['B', 'I', 'A', 'S'] k then
      if (pySplit '_' k).length < 3 then BiasOutcome.indexError
      else biasScan rest (n + 1)
    else biasScan rest n

/-- The bias block (`main_pipeline.py` lines 116-141): run only when the
instrument enables bias calibration (`tel.bias()`, line 116). -/
def biasBlock (biasEnabled : Bool) (calKeys : List PyStr) : BiasOutcome :=
  if biasEnabled then biasScan calKeys 0 else BiasOutcome.ok

/-! ## The master-flat skip/build decision (`main_pipeline.py` lines 172-239) -/

/-- Instrument wavelength regime (`tel.wavelength()`,
`main_pipeline.py` line 75). -/
inductive Wavelength where
  | opt
  | nir
deriving DecidableEq, Repr

/-- What the FLAT branch of `main_pipeline.py` lines 174-209 does for one
calibration key. -/
inductive FlatAction where
  | reuse
  | buildCalled
  | skippedNoBias
  | noBuildPath
deriving DecidableEq, Repr

/-- `process_flat` after `main_pipeline.py` lines 175-186: it starts
`True` and becomes `False` exactly when skip-reduction is requested and
every file named by `tel.flat_name(...)` exists
(`np.all([os.path.exists(mf) for mf in master_flat])`, line 182).
`masterExists` lists the existence of each expected master-flat file. -/
def processFlat (skipRed : Bool) (masterExists : List Bool) : Bool :=
  if skipRed then !(masterExists.all id) else true

/-- One pass of the FLAT branch (`main_pipeline.py` lines 174-209) for a
FLAT calibration key: if `process_flat` is `False` the existing master
flat is reused and nothing is built or written (`reuse`); otherwise, when
bias calibration is enabled, a failing `tel.load_bias` hits the
`except`/`continue` at lines 192-194 and the key is skipped
(`skippedNoBias`); otherwise `tel.create_flat` is invoked for optical
data (lines 197-199) or for near-infrared data with dome flats requested
(lines 202-207), and for near-infrared data without dome flats this
branch builds nothing (`noBuildPath`; sky flats are built from the sky
groups in the separate loop at lines 210-239, which repeats the same
`process_flat` decision at lines 215-223). -/
def flatStep (skipRed : Bool) (masterExists : List Bool) (biasEnabled biasLoadOk : Bool)
    (wavelength : Wavelength) (useDomeFlats : Bool) : FlatAction :=
  if processFlat skipRed masterExists = false then FlatAction.reuse
  else if biasEnabled && !biasLoadOk then FlatAction.skippedNoBias
  else if wavelength = Wavelength.opt then FlatAction.buildCalled
  else if useDomeFlats then FlatAction.buildCalled
  else FlatAction.noBuildPath

/-! ## NIR sky-frame selection (`main_pipeline.py` lines 292-296) -/

/-- The lexicographic order Python uses to sort the `(abs(time
difference), index)` tuples built at `main_pipeline.py` line 293. -/
def tupLe (p q : ℚ × ℕ) : Prop :=
  p.1 < q.1 ∨ (p.1 = q.1 ∧ p.2 ≤ q.2)

instance : DecidableRel tupLe := fun p q =>
  inferInstanceAs (Decidable (p.1 < q.1 ∨ (p.1 = q.1 ∧ p.2 ≤ q.2)))

instance : IsTrans (ℚ × ℕ) tupLe :=
  ⟨by
    rintro a b c (h1 | ⟨h1, h1'⟩) (h2 | ⟨h2, h2'⟩)
    · exact Or.inl (lt_trans h1 h2)
    · exact Or.inl (h2 ▸ h1)
    · exact Or.inl (h1 ▸ h2)
    · exact Or.inr ⟨h1.trans h2, le_trans h1' h2'⟩⟩

instance : IsTotal (ℚ × ℕ) tupLe :=
  ⟨by
    intro a b
    rcases lt_trichotomy a.1 b.1 with h | h | h
    · exact Or.inl (Or.inl h)
    · rcases le_total a.2 b.2 with h2 | h2
      · exact Or.inl (Or.inr ⟨h, h2⟩)
      · exact Or.inr (Or.inr ⟨h.symm, h2⟩)
    · exact Or.inr (Or.inl h)⟩

/-- `main_pipeline.py` line 293:
`time_diff = sorted([(abs(time_list[tar][j]-n2),k) for k,n2 in
enumerate(time_list[tar])])` — the absolute observation-time differences
to frame `j`, paired with each frame index, sorted in Python's ascending
tuple (lexicographic) order.  All second components are distinct, so the
lexicographic order is total and antisymmetric on this list and any
correct sort returns the unique sorted arrangement; structural
`insertionSort` is used so terms reduce in the kernel. -/
def timeDiffSorted (times : List ℚ) (j : ℕ) : List (ℚ × ℕ) :=
  (times.enum.map fun p => (|times.getD j 0 - p.2|, p.1)).insertionSort tupLe

/-- `main_pipeline.py` lines 294-296: the indices `k` of the frames whose
processed data, file names, and masks feed the sky estimate of frame `j`
are the second components of `time_diff[0:5]`; the selection is
recomputed from scratch for each `j`. -/
def skySelection (times : List ℚ) (j : ℕ) : List ℕ :=
  ((timeDiffSorted times j).take 5).map Prod.snd

/-! ## Concrete inputs used by the claim-level theorems -/

/-- Three frames with identical metrics and the observation times
10, 10.5, 11.2 (the spec's mid-time example). -/
def framesMid : List Frame :=
  [⟨1, 1, 10⟩, ⟨1, 1, 21 / 2⟩, ⟨1, 1, 56 / 5⟩]

/-- Sixteen frames: thirteen clean ones, one whose elongation 2 is the
single 3-sigma elongation outlier, and two whose FWHM 1 are the two
3-sigma FWHM outliers.  `ten_percent = int(16*0.1) = 1`, so the FWHM
outlier count 2 exceeds the cap while the elongation outlier count 1 does
not. -/
def framesCoupled : List Frame :=
  List.replicate 13 ⟨0, 1, 0⟩ ++ [⟨0, 2, 0⟩] ++ [⟨1, 1, 0⟩, ⟨1, 1, 0⟩]

/-- Sixteen frames with two 3-sigma FWHM outliers and no elongation
outlier: the relaxation branch is entered (2 > 1) and
`elong_sorted[ten_percent-1]` indexes the empty list `[]` at 0. -/
def framesCrash : List Frame :=
  List.replicate 14 ⟨0, 1, 0⟩ ++ [⟨1, 1, 0⟩, ⟨1, 1, 0⟩]

/-- Sixteen aligned frames of which exactly one (FWHM 1, the single
3-sigma FWHM outlier, within the cap `ten_percent = 1`) is rejected by
the unrelaxed 3-sigma cut, leaving fifteen passing frames. -/
def framesReject : List Frame :=
  List.replicate 15 ⟨0, 1, 0⟩ ++ [⟨1, 1, 0⟩]

/-- The fifteen frames of `framesReject` that pass the gate. -/
def stackReject : List Frame :=
  List.replicate 15 ⟨0, 1, 0⟩

/-- Two frames with identical metrics and times 3 and 5. -/
def framesPair : List Frame :=
  [⟨1, 1, 3⟩, ⟨1, 1, 5⟩]

/-- A readable science header and a header whose extension read raises
`IndexError` (`fits.open` itself succeeded). -/
def fileSci : RawHeader :=
  ⟨true, false, true, false, false, false, ['S', 'N'], ['V'], ['6', '0'], 10⟩

/-- A successfully opened file whose header extension is unreadable
(`Sort_files.py` lines 85-91). -/
def fileNoExt : RawHeader :=
  ⟨false, false, false, false, false, false, ['X'], ['V'], ['6', '0'], 11⟩

/-- A file matching the bias predicate set. -/
def fileBias : RawHeader :=
  ⟨true, false, false, true, false, false, ['B'], ['V'], ['0'], 12⟩

/-- A file matching no predicate set (classified BAD with a manifest
row). -/
def fileBad : RawHeader :=
  ⟨true, false, false, false, false, false, ['Y'], ['V'], ['9'], 13⟩

/-! ## General lemmas -/

section Lemmas

/-- The population variance is nonnegative. -/
theorem npVar_nonneg (l : List ℚ) : 0 ≤ npVar l := by
  unfold npVar
  apply div_nonneg
  · apply List.sum_nonneg
    intro x hx
    obtain ⟨y, _, rfl⟩ := List.mem_map.mp hx
    positivity
  · positivity

/-- Faithfulness of the rational outlier test: `isOutlier v med var` is
exactly the source comparison `v > med + 3*std` with `std = sqrt var`,
for any nonnegative variance. -/
theorem isOutlier_iff_sqrt (v med var : ℚ) (hvar : 0 ≤ var) :
    isOutlier v med var = true ↔ (med : ℝ) + 3 * Real.sqrt (var : ℚ) < (v : ℝ) := by
  unfold isOutlier
  rw [Bool.and_eq_true, decide_eq_true_eq, decide_eq_true_eq]
  have hvarR : (0 : ℝ) ≤ (var : ℚ) := by exact_mod_cast hvar
  constructor
  · rintro ⟨h1, h2⟩
    have hvm : (0 : ℝ) < (v : ℝ) - (med : ℝ) := by
      have : (med : ℝ) < (v : ℝ) := by exact_mod_cast h1
      linarith
    have h2R : (9 : ℝ) * (var : ℚ) < ((v : ℝ) - (med : ℝ)) ^ 2 := by
      exact_mod_cast h2
    have h3 : Real.sqrt (var : ℚ) < ((v : ℝ) - (med : ℝ)) / 3 := by
      rw [Real.sqrt_lt' (by linarith)]
      nlinarith
    linarith
  · intro h
    have hs : (0 : ℝ) ≤ Real.sqrt (var : ℚ) := Real.sqrt_nonneg _
    have hvm : (0 : ℝ) < (v : ℝ) - (med : ℝ) := by linarith
    refine ⟨by exact_mod_cast show (med : ℝ) < (v : ℝ) by linarith, ?_⟩
    have h3 : Real.sqrt (var : ℚ) < ((v : ℝ) - (med : ℝ)) / 3 := by linarith
    rw [Real.sqrt_lt' (by linarith)] at h3
    have : (9 : ℝ) * (var : ℚ) < ((v : ℝ) - (med : ℝ)) ^ 2 := by nlinarith
    exact_mod_cast this

/-- The FWHM outlier list is the source's
`fwhm[fwhm > fwhm_med + 3*fwhm_std]`. -/
theorem fwhmOutliers_spec (frames : List Frame) :
    fwhmOutliers frames = (fwhmList frames).filter (fun v : ℚ =>
      decide ((npMedian (fwhmList frames) : ℝ) + 3 * npStd (fwhmList frames) < (v : ℝ))) := by
  unfold fwhmOutliers
  apply List.filter_congr
  intro v _
  rw [Bool.eq_iff_iff, isOutlier_iff_sqrt v _ _ (npVar_nonneg _), decide_eq_true_eq]
  unfold npStd
  exact Iff.rfl

/-- The elongation outlier list is the source's
`elong[elong > elong_med + 3*elong_std]`. -/
theorem elongOutliers_spec (frames : List Frame) :
    elongOutliers frames = (elongList frames).filter (fun v : ℚ =>
      decide ((npMedian (elongList frames) : ℝ) + 3 * npStd (elongList frames) < (v : ℝ))) := by
  unfold elongOutliers
  apply List.filter_congr
  intro v _
  rw [Bool.eq_iff_iff, isOutlier_iff_sqrt v _ _ (npVar_nonneg _), decide_eq_true_eq]
  unfold npStd
  exact Iff.rfl

/-- `pySorted` permutes its input. -/
theorem pySorted_perm (l : List ℚ) : (pySorted l).Perm l :=
  List.perm_insertionSort _ l

/-- `pySorted` sorts its input. -/
theorem pySorted_sorted (l : List ℚ) : (pySorted l).Sorted (· ≤ ·) :=
  List.sorted_insertionSort _ l

/-- Sorting a constant list returns it unchanged. -/
theorem pySorted_replicate (n : ℕ) (a : ℚ) :
    pySorted (List.replicate n a) = List.replicate n a := by
  apply List.eq_replicate_iff.mpr
  constructor
  · rw [(pySorted_perm _).length_eq, List.length_replicate]
  · intro b hb
    exact List.eq_of_mem_replicate ((pySorted_perm _).mem_iff.mp hb)

/-- The median of a nonempty constant list is the constant. -/
theorem npMedian_replicate (n : ℕ) (hn : n ≠ 0) (a : ℚ) :
    npMedian (List.replicate n a) = a := by
  unfold npMedian
  rw [pySorted_replicate, List.length_replicate]
  have hget : ∀ i, i < n → (List.replicate n a).getD i 0 = a := by
    intro i hi
    rw [List.getD_eq_getElem?_getD, List.getElem?_replicate, if_pos hi]
    rfl
  have h2 : n / 2 < n := Nat.div_lt_self (Nat.pos_of_ne_zero hn) (by norm_num)
  by_cases hpar : n % 2 = 1
  · rw [if_pos hpar, hget _ h2]
  · rw [if_neg hpar, hget _ h2, hget _ (lt_of_le_of_lt (Nat.sub_le _ _) h2)]
    ring

/-- The mean of a nonempty constant list is the constant. -/
theorem npMean_replicate (n : ℕ) (hn : n ≠ 0) (a : ℚ) :
    npMean (List.replicate n a) = a := by
  unfold npMean
  rw [List.sum_replicate, List.length_replicate, nsmul_eq_mul]
  rw [mul_comm, mul_div_assoc, div_self (by exact_mod_cast hn), mul_one]

/-- The variance of a nonempty constant list is zero. -/
theorem npVar_replicate (n : ℕ) (hn : n ≠ 0) (a : ℚ) :
    npVar (List.replicate n a) = 0 := by
  unfold npVar
  rw [npMean_replicate n hn a, List.map_replicate]
  simp

/-- With zero variance, the outlier test reduces to strict excess over
the median; in particular the median itself is no outlier. -/
theorem isOutlier_self_zero_var (a : ℚ) : isOutlier a a 0 = false := by
  unfold isOutlier
  simp

/-- `midTime` succeeds on every nonempty time list. -/
theorem midTime_isSome (times : List ℚ) (h : times ≠ []) :
    ∃ m, midTime times = some m := by
  have hs : pySorted times ≠ [] := by
    intro hnil
    apply h
    have hlen := (pySorted_perm times).length_eq
    rw [hnil] at hlen
    exact List.length_eq_zero.mp hlen.symm
  obtain ⟨t0, rest, hcons⟩ := List.exists_cons_of_ne_nil hs
  obtain ⟨t1, hlast⟩ := Option.isSome_iff_exists.mp (List.getLast?_isSome.mpr hs)
  refine ⟨t0 + (t1 - t0) / 2, ?_⟩
  unfold midTime
  rw [hcons] at hlast ⊢
  rw [List.head?_cons, hlast]

/-- In a `(· ≤ ·)`-sorted rational list the last element is an upper
bound. -/
theorem sorted_le_getLast (l : List ℚ) (b : ℚ)
    (hs : l.Sorted (· ≤ ·)) (hb : l.getLast? = some b) :
    ∀ a ∈ l, a ≤ b := by
  induction l with
  | nil => simp at hb
  | cons x t ih =>
    intro a ha
    cases t with
    | nil =>
      simp at hb ha
      simp [ha, hb]
    | cons y s =>
      rw [List.getLast?_cons_cons] at hb
      rcases List.mem_cons.mp ha with rfl | hat
      · have hbmem : b ∈ y :: s := List.mem_of_getLast?_eq_some hb
        exact List.rel_of_sorted_cons hs b hbmem
      · exact ih (List.Sorted.of_cons hs) hb a hat

/-- What a successful `midTime` returns: the midpoint between the least
and the greatest time. -/
theorem midTime_eq_minmax (times : List ℚ) (m : ℚ)
    (h : midTime times = some m) :
    ∃ tmin tmax, tmin ∈ times ∧ (∀ t ∈ times, tmin ≤ t) ∧
      tmax ∈ times ∧ (∀ t ∈ times, t ≤ tmax) ∧
      m = tmin + (tmax - tmin) / 2 := by
  have hperm : (pySorted times).Perm times := pySorted_perm times
  have hsor : (pySorted times).Sorted (· ≤ ·) := pySorted_sorted times
  unfold midTime at h
  cases hh : (pySorted times).head? with
  | none => rw [hh] at h; simp at h
  | some t0 =>
    cases hl : (pySorted times).getLast? with
    | none => rw [hh, hl] at h; simp at h
    | some t1 =>
      rw [hh, hl] at h
      simp only [Option.some_inj] at h
      obtain ⟨rest, hcons⟩ : ∃ rest, pySorted times = t0 :: rest := by
        cases hq : pySorted times with
        | nil => rw [hq] at hh; simp at hh
        | cons u v =>
          rw [hq, List.head?_cons, Option.some_inj] at hh
          subst hh
          exact ⟨v, rfl⟩
      refine ⟨t0, t1, ?_, ?_, ?_, ?_, h.symm⟩
      · exact hperm.mem_iff.mp (by rw [hcons]; exact List.mem_cons_self _ _)
      · intro t ht
        have htm : t ∈ pySorted times := hperm.mem_iff.mpr ht
        rw [hcons] at htm
        rcases List.mem_cons.mp htm with rfl | hmem
        · exact le_refl t
        · exact List.rel_of_sorted_cons (by rw [hcons] at hsor; exact hsor) t hmem
      · exact hperm.mem_iff.mp (List.mem_of_getLast?_eq_some hl)
      · intro t ht
        exact sorted_le_getLast _ _ hsor hl t (hperm.mem_iff.mpr ht)

end Lemmas

/-! ## Claim-level theorems -/

section Claims

attribute [local semireducible] Rat.add Rat.mul Rat.sub Rat.inv Rat.ofScientific

/-- C9: for every nonempty frame list whose FWHM values are all identical
and whose elongation values are all identical, the quality gate rejects
zero frames: `quality_check` succeeds and returns exactly the input
frames, in their original order, together with a mid-time. -/
theorem quality_gate_all_identical (frames : List Frame) (a b : ℚ)
    (hne : frames ≠ []) (hall : ∀ fr ∈ frames, fr.fwhm = a ∧ fr.elong = b) :
    ∃ mid, quality_check frames = some (frames, mid) := by
  have hn : frames.length ≠ 0 := fun h0 => hne (List.length_eq_zero.mp h0)
  have hfw : fwhmList frames = List.replicate frames.length a := by
    apply List.eq_replicate_iff.mpr
    refine ⟨by simp [fwhmList], ?_⟩
    intro x hx
    obtain ⟨fr, hfr, rfl⟩ := List.mem_map.mp hx
    exact (hall fr hfr).1
  have hel : elongList frames = List.replicate frames.length b := by
    apply List.eq_replicate_iff.mpr
    refine ⟨by simp [elongList], ?_⟩
    intro x hx
    obtain ⟨fr, hfr, rfl⟩ := List.mem_map.mp hx
    exact (hall fr hfr).2
  have hmedF : npMedian (fwhmList frames) = a := by
    rw [hfw]; exact npMedian_replicate _ hn a
  have hvarF : npVar (fwhmList frames) = 0 := by
    rw [hfw]; exact npVar_replicate _ hn a
  have hmedE : npMedian (elongList frames) = b := by
    rw [hel]; exact npMedian_replicate _ hn b
  have hvarE : npVar (elongList frames) = 0 := by
    rw [hel]; exact npVar_replicate _ hn b
  have houtF : fwhmOutliers frames = [] := by
    unfold fwhmOutliers
    rw [List.filter_eq_nil_iff]
    intro v hv
    have hva : v = a := by
      rw [hfw] at hv; exact List.eq_of_mem_replicate hv
    rw [hva, hmedF, hvarF, isOutlier_self_zero_var]
    simp
  have houtE : elongOutliers frames = [] := by
    unfold elongOutliers
    rw [List.filter_eq_nil_iff]
    intro v hv
    have hvb : v = b := by
      rw [hel] at hv; exact List.eq_of_mem_replicate hv
    rw [hvb, hmedE, hvarE, isOutlier_self_zero_var]
    simp
  have hcuts : cutsOf frames = some (Cuts.threeSigma a 0 b 0) := by
    unfold cutsOf
    rw [houtF, houtE, hmedF, hvarF, hmedE, hvarE]
    simp
  have hkeep : frames.filter (keepFrame (Cuts.threeSigma a 0 b 0)) = frames := by
    apply List.filter_eq_self.mpr
    intro fr hfr
    obtain ⟨h1, h2⟩ := hall fr hfr
    simp only [keepFrame]
    rw [h1, h2, isOutlier_self_zero_var a, isOutlier_self_zero_var b]
    rfl
  obtain ⟨mid, hmid⟩ := midTime_isSome (frames.map Frame.time)
    (by simpa using hne)
  refine ⟨mid, ?_⟩
  unfold quality_check
  rw [hcuts]
  simp only [Option.some_bind]
  rw [hkeep, hmid]
  rfl

/-- Witness for C9 at a concrete input: a single frame with FWHM 2,
elongation 3 and time 7 passes the gate unchanged. -/
theorem quality_gate_all_identical_witness :
    ∃ mid, quality_check [(⟨2, 3, 7⟩ : Frame)] = some ([⟨2, 3, 7⟩], mid) :=
  quality_gate_all_identical [⟨2, 3, 7⟩] 2 3 (by decide) (by decide)

/-- C7: whenever `quality_check` succeeds, the returned mid-time equals
`min(times) + (max(times) - min(times))/2` over the observation times of
the passing frames (which are therefore nonempty). -/
theorem stack_midtime_minmax (frames stacking : List Frame) (mid : ℚ)
    (h : quality_check frames = some (stacking, mid)) :
    ∃ tmin tmax, tmin ∈ stacking.map Frame.time ∧
      (∀ t ∈ stacking.map Frame.time, tmin ≤ t) ∧
      tmax ∈ stacking.map Frame.time ∧
      (∀ t ∈ stacking.map Frame.time, t ≤ tmax) ∧
      mid = tmin + (tmax - tmin) / 2 := by
  unfold quality_check at h
  cases hc : cutsOf frames with
  | none => rw [hc] at h; simp at h
  | some c =>
    rw [hc] at h
    simp only [Option.some_bind, Option.map_eq_some'] at h
    obtain ⟨m, hm, heq⟩ := h
    obtain ⟨hstack, hmid⟩ := Prod.mk.injEq .. |>.mp heq
    subst hstack
    subst hmid
    exact midTime_eq_minmax _ _ hm

/-- Witness for C7 at the spec's example times 10, 10.5, 11.2: the gate
passes all three frames and the mid-time is 53/5 = 10.6. -/
theorem stack_midtime_minmax_witness :
    quality_check framesMid = some (framesMid, 53 / 5) ∧
    ∃ tmin tmax, tmin ∈ framesMid.map Frame.time ∧
      (∀ t ∈ framesMid.map Frame.time, tmin ≤ t) ∧
      tmax ∈ framesMid.map Frame.time ∧
      (∀ t ∈ framesMid.map Frame.time, t ≤ tmax) ∧
      53 / 5 = tmin + (tmax - tmin) / 2 :=
  ⟨by decide, stack_midtime_minmax framesMid framesMid (53 / 5) (by decide)⟩

/-- C10: the quality gate's relaxation branch is not total.  On
`framesCrash` — sixteen frames whose two FWHM 3-sigma outliers exceed the
cap `ten_percent = 1` while the elongation metric has zero 3-sigma
outliers — `elong_sorted[ten_percent-1]` indexes the empty sorted
elongation outlier list, and the uncaught `IndexError` aborts
`quality_check` instead of returning a frame selection. -/
theorem quality_check_not_total :
    tenPercent framesCrash.length < (fwhmOutliers framesCrash).length ∧
    (elongOutliers framesCrash).length < tenPercent framesCrash.length ∧
    quality_check framesCrash = none := by
  decide

/-- C5 (code evaluation): `quality_check` returns exactly the pair
`(stacking frames, mid-time)` — here evaluated on two frames with times 3
and 5, giving mid-time 4.  No total-exposure value is computed or
returned (`quality_check.py` line 98 returns two values), although
`main_pipeline.py` line 362 unpacks three. -/
theorem quality_check_returns_pair :
    quality_check framesPair = some (framesPair, 4) := by
  decide

/-- C4 (code evaluation): on `framesReject`, sixteen aligned frames of
which fifteen pass the gate, the recorded stack metadata divides the base
read noise 5 by sqrt(16) = 4 and records sixteen files
(`main_pipeline.py` lines 369-370 use `len(aligned_images)`), instead of
the passing-count values 5/sqrt(15) and 15 stated by the claim. -/
theorem stack_metadata_uses_aligned_count :
    quality_check framesReject = some (stackReject, 0) ∧
    stackReject.length = 15 ∧
    stackNFiles framesReject = 16 ∧
    stackRdnoise 5 framesReject = 5 / 4 ∧
    stackRdnoise 5 framesReject ≠ (5 : ℝ) / Real.sqrt ((stackReject.length : ℕ) : ℝ) ∧
    stackNFiles framesReject ≠ stackReject.length := by
  have hlen : ((framesReject.length : ℕ) : ℝ) = 16 := by
    norm_num [framesReject]
  have hlen15 : ((stackReject.length : ℕ) : ℝ) = 15 := by
    norm_num [stackReject]
  have h16 : Real.sqrt 16 = 4 := by
    rw [show (16 : ℝ) = 4 ^ 2 by norm_num]
    exact Real.sqrt_sq (by norm_num)
  have hrd : stackRdnoise 5 framesReject = 5 / 4 := by
    unfold stackRdnoise
    rw [hlen, h16]
    norm_num
  have hne : stackRdnoise 5 framesReject ≠ (5 : ℝ) / Real.sqrt ((stackReject.length : ℕ) : ℝ) := by
    rw [hrd, hlen15]
    intro hEq
    have hpos : 0 < Real.sqrt 15 := Real.sqrt_pos.mpr (by norm_num)
    have hsq : Real.sqrt 15 = 4 := by
      field_simp at hEq
      linarith
    have hss := Real.sq_sqrt (by norm_num : (0 : ℝ) ≤ 15)
    rw [hsq] at hss
    norm_num at hss
  exact ⟨by decide, by decide, by decide, hrd, hne, by decide⟩

/-- `pySortedDesc` permutes its input. -/
theorem pySortedDesc_perm (l : List ℚ) : (pySortedDesc l).Perm l :=
  List.perm_insertionSort _ l

/-- Python indexing at `tp - 1` succeeds, with a value from the list,
whenever the list has at least `max tp 1` elements (`tp ≥ 1` reads the
`tp`-th entry from the front; `tp = 0` reads index `-1`, the last
element). -/
theorem pyIndex_tp_sub_one (l : List ℚ) (tp : ℕ) (h : max tp 1 ≤ l.length) :
    ∃ v, pyIndex l ((tp : ℤ) - 1) = some v ∧ v ∈ l := by
  unfold pyIndex
  rcases Nat.eq_zero_or_pos tp with h0 | hpos
  · subst h0
    have hlen : 1 ≤ l.length := le_trans (le_max_right _ _) h
    rw [if_neg (by norm_num), if_pos (by push_cast; omega)]
    have hidx : ((0 : ℕ) : ℤ) - 1 + l.length = ((l.length - 1 : ℕ) : ℤ) := by
      push_cast
      omega
    rw [hidx]
    have hlt : l.length - 1 < l.length := by omega
    rw [Int.toNat_ofNat, List.get?_eq_get hlt]
    exact ⟨_, rfl, List.get_mem _ _ _⟩
  · have hle : tp ≤ l.length := le_trans (le_max_left _ _) h
    rw [if_pos (by omega)]
    have hidx : ((tp : ℤ) - 1).toNat = tp - 1 := by omega
    rw [hidx]
    have hlt : tp - 1 < l.length := by omega
    rw [List.get?_eq_get hlt]
    exact ⟨_, rfl, List.get_mem _ _ _⟩

/-- C1 (amended): threshold relaxation is coupled, not per-metric.
Whenever the 3-sigma outlier count of *either* metric exceeds the cap
`ten_percent`, and both sorted outlier lists have an element at Python
index `ten_percent - 1` (at least `max ten_percent 1` outliers each),
then *both* thresholds are replaced by values drawn from the respective
outlier lists — so each new threshold itself exceeds that metric's
original `median + 3*std` threshold, including for a metric whose own
outlier count is within the cap. -/
theorem relaxation_coupled (frames : List Frame)
    (hexc : tenPercent frames.length < (fwhmOutliers frames).length ∨
      tenPercent frames.length < (elongOutliers frames).length)
    (hf : max (tenPercent frames.length) 1 ≤ (fwhmOutliers frames).length)
    (he : max (tenPercent frames.length) 1 ≤ (elongOutliers frames).length) :
    ∃ fc ec, cutsOf frames = some (Cuts.relaxed fc ec) ∧
      isOutlier fc (npMedian (fwhmList frames)) (npVar (fwhmList frames)) = true ∧
      isOutlier ec (npMedian (elongList frames)) (npVar (elongList frames)) = true := by
  obtain ⟨fc, hfc, hfmem⟩ := pyIndex_tp_sub_one (pySortedDesc (fwhmOutliers frames))
    (tenPercent frames.length)
    (by rw [(pySortedDesc_perm _).length_eq]; exact hf)
  obtain ⟨ec, hec, hemem⟩ := pyIndex_tp_sub_one (pySortedDesc (elongOutliers frames))
    (tenPercent frames.length)
    (by rw [(pySortedDesc_perm _).length_eq]; exact he)
  refine ⟨fc, ec, ?_, ?_, ?_⟩
  · unfold cutsOf
    rw [if_pos hexc, hfc, hec]
  · have : fc ∈ fwhmOutliers frames := (pySortedDesc_perm _).mem_iff.mp hfmem
    exact (List.mem_filter.mp this).2
  · have : ec ∈ elongOutliers frames := (pySortedDesc_perm _).mem_iff.mp hemem
    exact (List.mem_filter.mp this).2

/-- Witness for the amended C1 at `framesCoupled`: the FWHM outlier count
2 exceeds the cap 1, the elongation outlier count is exactly 1 (within
the cap), and both thresholds are nevertheless taken from the outlier
lists. -/
theorem relaxation_coupled_witness :
    ∃ fc ec, cutsOf framesCoupled = some (Cuts.relaxed fc ec) ∧
      isOutlier fc (npMedian (fwhmList framesCoupled)) (npVar (fwhmList framesCoupled)) = true ∧
      isOutlier ec (npMedian (elongList framesCoupled)) (npVar (elongList framesCoupled)) = true :=
  relaxation_coupled framesCoupled (by decide) (by decide) (by decide)

/-- C1 (counterexample): on `framesCoupled` the elongation outlier count
(1) is within the cap `ten_percent = 1` while the FWHM outlier count (2)
exceeds it; the claim then demands the original `median + 3*std`
elongation threshold, which the frame with elongation 2 exceeds
(`isOutlier` holds for it), so per the claim that frame is excluded — yet
the code relaxes the elongation threshold to 2 as well
(`Cuts.relaxed 1 2`) and keeps all sixteen frames, that one included. -/
theorem per_metric_relaxation_counterexample :
    (elongOutliers framesCoupled).length ≤ tenPercent framesCoupled.length ∧
    tenPercent framesCoupled.length < (fwhmOutliers framesCoupled).length ∧
    isOutlier 2 (npMedian (elongList framesCoupled)) (npVar (elongList framesCoupled)) = true ∧
    cutsOf framesCoupled = some (Cuts.relaxed 1 2) ∧
    quality_check framesCoupled = some (framesCoupled, 0) ∧
    (⟨0, 2, 0⟩ : Frame) ∈ framesCoupled := by
  decide

/-- `sortFilesRows` is precisely one row per file with readable header
extension, in scan order. -/
theorem sortFilesRows_eq_map (files : List RawHeader) :
    sortFilesRows files = (files.filter fun h => h.extReadable).map fun h =>
      ⟨h.target.filter (fun c => c ≠ ' '), h.fil, h.exp, classify h,
        if classify h = FileType.science then some h.obsTime else none⟩ := by
  unfold sortFilesRows
  induction files with
  | nil => rfl
  | cons h t ih =>
    cases hr : h.extReadable with
    | true => simp only [List.filterMap_cons, List.filter_cons, hr, if_pos rfl, ih]; rfl
    | false => simp only [List.filterMap_cons, List.filter_cons, hr, ih]; rfl

/-- C3 (amended): the classification scan appends exactly one manifest
row per raw file whose header extension is readable — a successfully
opened file whose extension read fails is quarantined with *no* row —
and a row carries an observation time exactly when it is a SCIENCE row;
the table is persisted once, after the scan (structurally: the manifest
is the final value of the scan, `Sort_files.py` line 151). -/
theorem manifest_rows_per_readable_file (files : List RawHeader) :
    (sortFilesRows files).length = (files.filter fun h => h.extReadable).length ∧
    ∀ r ∈ sortFilesRows files, (r.obsTime.isSome ↔ r.ftype = FileType.science) := by
  constructor
  · rw [sortFilesRows_eq_map, List.length_map]
  · intro r hr
    rw [sortFilesRows_eq_map] at hr
    obtain ⟨h, _, rfl⟩ := List.mem_map.mp hr
    by_cases hc : classify h = FileType.science
    · simp [hc]
    · simp [hc]

/-- Witness for the amended C3 on four files: a science frame, a frame
with unreadable extension, a bias frame, and a no-predicate BAD frame. -/
theorem manifest_rows_per_readable_file_witness :
    (sortFilesRows [fileSci, fileNoExt, fileBias, fileBad]).length =
      ([fileSci, fileNoExt, fileBias, fileBad].filter fun h => h.extReadable).length ∧
    ∀ r ∈ sortFilesRows [fileSci, fileNoExt, fileBias, fileBad],
      (r.obsTime.isSome ↔ r.ftype = FileType.science) :=
  manifest_rows_per_readable_file [fileSci, fileNoExt, fileBias, fileBad]

/-- C3 (counterexample): two successfully opened raw files, one of which
has an unreadable header extension, yield one manifest row, not two: the
`continue` at `Sort_files.py` line 91 skips the `add_row` at line 150. -/
theorem manifest_row_counterexample :
    ([fileSci, fileNoExt] : List RawHeader).length = 2 ∧
    (sortFilesRows [fileSci, fileNoExt]).length = 1 := by
  decide

/-- A fold whose step only ever appends preserves the head of its
accumulator. -/
theorem foldl_append_head {α β : Type} (g : List α → β → List α)
    (hg : ∀ ks b, ∃ t, g ks b = ks ++ t) :
    ∀ (l : List β) (x : α) (acc : List α), ∃ rest, l.foldl g (x :: acc) = x :: rest := by
  intro l
  induction l with
  | nil => exact fun x acc => ⟨acc, rfl⟩
  | cons b t ih =>
    intro x acc
    obtain ⟨u, hu⟩ := hg (x :: acc) b
    rw [List.foldl_cons, hu, List.cons_append]
    exact ih x (acc ++ u)

/-- Every key list built by `sort_files` starts with the initial `'BIAS'`
key (`Sort_files.py` line 72). -/
theorem sortFilesCalKeys_head (files : List RawHeader) :
    ∃ rest, sortFilesCalKeys files = ['B', 'I', 'A', 'S'] :: rest := by
  unfold sortFilesCalKeys
  refine foldl_append_head calKeyStep ?_ _ _ []
  intro ks h
  unfold calKeyStep
  cases classify h with
  | flat =>
    by_cases hk : (['F', 'L', 'A', 'T', '_'] ++ h.fil) ∈ ks
    · exact ⟨[], by rw [if_pos hk, List.append_nil]⟩
    · exact ⟨_, by rw [if_neg hk]⟩
  | dark =>
    by_cases hk : (['D', 'A', 'R', 'K', '_'] ++ h.exp) ∈ ks
    · exact ⟨[], by rw [if_pos hk, List.append_nil]⟩
    · exact ⟨_, by rw [if_neg hk]⟩
  | science => exact ⟨[], (List.append_nil ks).symm⟩
  | bias => exact ⟨[], (List.append_nil ks).symm⟩
  | spectro => exact ⟨[], (List.append_nil ks).symm⟩
  | bad => exact ⟨[], (List.append_nil ks).symm⟩

/-- C2 (code evaluation): with bias calibration enabled, the bias block
crashes with an uncaught `IndexError` on *every* key list `sort_files`
can produce — with or without bias frames.  The initial `'BIAS'` key
always exists (`Sort_files.py` line 72), so the `'BIAS' in cal` test at
`main_pipeline.py` line 119 always fires, and `cal.split('_')[1]`
(line 122) indexes past the single-element split of `'BIAS'`; in
particular the designed `bias_num == 0` exit at lines 138-141 is
unreachable, and the run aborts at this point even when bias frames are
present. -/
theorem bias_block_always_index_error (files : List RawHeader) :
    biasBlock true (sortFilesCalKeys files) = BiasOutcome.indexError := by
  obtain ⟨rest, hkeys⟩ := sortFilesCalKeys_head files
  rw [biasBlock, if_pos rfl, hkeys]
  show biasScan _ _ = _
  rw [biasScan]
  rw [if_pos (by decide), if_pos (by decide)]

/-- Witness for C2's evaluation: both a frame list with one bias frame
and one with only a science frame make the enabled bias block die with
`IndexError`. -/
theorem bias_block_always_index_error_witness :
    biasBlock true (sortFilesCalKeys [fileBias]) = BiasOutcome.indexError ∧
    biasBlock true (sortFilesCalKeys [fileSci]) = BiasOutcome.indexError :=
  ⟨bias_block_always_index_error [fileBias], bias_block_always_index_error [fileSci]⟩

/-- C8 (amended): with skip-reduction enabled and every expected
master-flat file present, `process_flat` is `False`, no build delegate is
invoked and nothing is written for the key (`reuse`); when any expected
file is missing, `process_flat` stays `True` and the build block is
entered, and the build delegate is actually invoked provided the
upstream master-bias load succeeds (or bias calibration is disabled) and
the flat strategy applies (optical data, or dome flats requested) — a
failing bias load instead skips the key with a logged error. -/
theorem flat_skip_decision (skipRed biasEnabled biasLoadOk useDomeFlats : Bool)
    (masterExists : List Bool) (w : Wavelength) :
    (skipRed = true → masterExists.all id = true →
      flatStep skipRed masterExists biasEnabled biasLoadOk w useDomeFlats = FlatAction.reuse) ∧
    (masterExists.all id = false →
      processFlat skipRed masterExists = true ∧
      (biasEnabled = true → biasLoadOk = false →
        flatStep skipRed masterExists biasEnabled biasLoadOk w useDomeFlats =
          FlatAction.skippedNoBias) ∧
      ((biasEnabled = false ∨ biasLoadOk = true) →
        (w = Wavelength.opt ∨ useDomeFlats = true) →
        flatStep skipRed masterExists biasEnabled biasLoadOk w useDomeFlats =
          FlatAction.buildCalled)) := by
  constructor
  · intro h1 h2
    unfold flatStep processFlat
    rw [h1, h2]
    simp
  · intro h2
    have hpf : processFlat skipRed masterExists = true := by
      unfold processFlat
      cases skipRed <;> simp [h2]
    refine ⟨hpf, ?_, ?_⟩
    · intro hb hok
      unfold flatStep
      rw [hpf, hb, hok]
      simp
    · intro hbias hw
      unfold flatStep
      rw [hpf]
      have hnb : (biasEnabled && !biasLoadOk) = false := by
        rcases hbias with hb | hok
        · rw [hb]; rfl
        · rw [hok]; simp
      rw [hnb]
      rcases hw with hopt | hdome
      · rw [hopt]; simp
      · rw [hdome]
        cases w <;> simp

/-- Witness for the amended C8: with skip-mode on and the single expected
file present the action is `reuse`; with the file missing and a working
bias load the delegate build is invoked. -/
theorem flat_skip_decision_witness :
    ((true : Bool) = true → ([true] : List Bool).all id = true →
      flatStep true [true] true true Wavelength.opt false = FlatAction.reuse) ∧
    (([true] : List Bool).all id = false →
      processFlat true [true] = true ∧
      ((true : Bool) = true → (true : Bool) = false →
        flatStep true [true] true true Wavelength.opt false = FlatAction.skippedNoBias) ∧
      (((true : Bool) = false ∨ (true : Bool) = true) →
        (Wavelength.opt = Wavelength.opt ∨ (false : Bool) = true) →
        flatStep true [true] true true Wavelength.opt false = FlatAction.buildCalled)) :=
  flat_skip_decision true true true false [true] Wavelength.opt

/-- C8 (counterexample): skip-mode with a missing expected master-flat
file enters the build block, but when bias calibration is enabled and the
master-bias load fails, the key is skipped (`continue`,
`main_pipeline.py` lines 192-194) and the build delegate is *not*
invoked, contrary to the claim's ``when any expected file is missing,
the build is performed''. -/
theorem flat_build_skipped_counterexample :
    processFlat true [false] = true ∧
    flatStep true [false] true false Wavelength.opt false = FlatAction.skippedNoBias ∧
    flatStep true [false] true false Wavelength.opt false ≠ FlatAction.buildCalled := by
  decide

/-- C6 (amended): for each science frame `j` of a NIR group, the sky
estimate is built from the frames whose `(abs(time difference to j),
index)` pairs are the `min 5 N` lexicographically smallest; frame `j`
itself (time difference 0) is among them *provided* fewer than five
earlier frames of the group carry exactly its observation time — its
pair `(0, j)` can be pushed out of the first five only by pairs
`(0, k)` with `k < j` and the identical time. -/
theorem sky_selection_self_included (times : List ℚ) (j : ℕ) (hj : j < times.length)
    (hcount : ((List.range j).filter fun k =>
      times.getD k 0 = times.getD j 0).length < 5) :
    j ∈ skySelection times j ∧ (skySelection times j).length = min 5 times.length := by
  have hSperm : (timeDiffSorted times j).Perm
      (times.enum.map fun p => (|times.getD j 0 - p.2|, p.1)) :=
    List.perm_insertionSort tupLe _
  have hSsort : List.Pairwise tupLe (timeDiffSorted times j) :=
    List.sorted_insertionSort tupLe _
  have hlenpairs : (times.enum.map fun p => (|times.getD j 0 - p.2|, p.1)).length
      = times.length := by
    rw [List.length_map]
    simp [List.enum]
  have hlenS : (timeDiffSorted times j).length = times.length :=
    hSperm.length_eq.trans hlenpairs
  have hsel : skySelection times j = ((timeDiffSorted times j).take 5).map Prod.snd := rfl
  have hlensel : (skySelection times j).length = min 5 times.length := by
    rw [hsel, List.length_map, List.length_take, hlenS]
  refine ⟨?_, hlensel⟩
  have htj : times.getD j 0 = times.get ⟨j, hj⟩ := by
    rw [List.getD_eq_getElem?_getD, List.getElem?_eq_getElem hj]
    rfl
  have hmem_enum : (j, times.get ⟨j, hj⟩) ∈ times.enum :=
    List.mk_mem_enum_iff_getElem?.mpr (List.getElem?_eq_getElem hj)
  have hmem_pairs : ((0 : ℚ), j) ∈ times.enum.map fun p => (|times.getD j 0 - p.2|, p.1) := by
    have heqp : ((fun p : ℕ × ℚ => (|times.getD j 0 - p.2|, p.1)) (j, times.get ⟨j, hj⟩))
        = ((0 : ℚ), j) := by
      rw [Prod.mk.injEq]
      refine ⟨?_, rfl⟩
      rw [htj, sub_self, abs_zero]
    rw [← heqp]
    exact List.mem_map_of_mem _ hmem_enum
  by_contra hnot
  have hjS : ((0 : ℚ), j) ∈ timeDiffSorted times j := hSperm.mem_iff.mpr hmem_pairs
  have hnotTake : ((0 : ℚ), j) ∉ (timeDiffSorted times j).take 5 := by
    intro hin
    exact hnot (hsel ▸ List.mem_map_of_mem Prod.snd hin)
  have hdrop : ((0 : ℚ), j) ∈ (timeDiffSorted times j).drop 5 := by
    have hsplitmem : ((0 : ℚ), j) ∈
        (timeDiffSorted times j).take 5 ++ (timeDiffSorted times j).drop 5 := by
      rw [List.take_append_drop]
      exact hjS
    rcases List.mem_append.mp hsplitmem with h | h
    · exact absurd h hnotTake
    · exact h
  have h5n : 5 < times.length := by
    by_contra hle
    push_neg at hle
    rw [List.drop_eq_nil_of_le
      (show (timeDiffSorted times j).length ≤ 5 by omega)] at hdrop
    exact absurd hdrop (List.not_mem_nil _)
  have htake5 : ((timeDiffSorted times j).take 5).length = 5 := by
    rw [List.length_take]
    omega
  have hsndpairs : ((times.enum.map fun p => (|times.getD j 0 - p.2|, p.1)).map Prod.snd)
      = times.enum.map Prod.fst := by
    rw [List.map_map]
    rfl
  have hnodup_pairs_snd :
      ((times.enum.map fun p => (|times.getD j 0 - p.2|, p.1)).map Prod.snd).Nodup := by
    rw [hsndpairs]
    exact List.nodup_enum_map_fst times
  have hnodupSsnd : ((timeDiffSorted times j).map Prod.snd).Nodup :=
    ((hSperm.map Prod.snd).nodup_iff).mpr hnodup_pairs_snd
  have hpw : ∀ x ∈ (timeDiffSorted times j).take 5, tupLe x (0, j) := by
    have hsplit : List.Pairwise tupLe
        ((timeDiffSorted times j).take 5 ++ (timeDiffSorted times j).drop 5) := by
      rw [List.take_append_drop]
      exact hSsort
    have hap := (List.pairwise_append.mp hsplit).2.2
    intro x hx
    exact hap x hx (0, j) hdrop
  have hne5 : ∀ x ∈ (timeDiffSorted times j).take 5, x ≠ ((0 : ℚ), j) := by
    intro x hx heq
    rw [heq] at hx
    exact hnotTake hx
  have hchar : ∀ x ∈ (timeDiffSorted times j).take 5,
      x.2 < j ∧ times.getD x.2 0 = times.getD j 0 := by
    intro x hx
    have hxpairs : x ∈ times.enum.map fun p => (|times.getD j 0 - p.2|, p.1) :=
      hSperm.mem_iff.mp (List.mem_of_mem_take hx)
    obtain ⟨p, hp, rfl⟩ := List.mem_map.mp hxpairs
    have hget : times[p.1]? = some p.2 := List.mk_mem_enum_iff_getElem?.mp (by
      rcases p with ⟨i, v⟩
      exact hp)
    have hgetD : times.getD p.1 0 = p.2 := by
      rw [List.getD_eq_getElem?_getD, hget]
      rfl
    rcases hpw _ hx with hlt | ⟨heq0, hle⟩
    · exact absurd hlt (by simp [abs_nonneg])
    · have habs : |times.getD j 0 - p.2| = 0 := heq0
      have hval : p.2 = times.getD j 0 := by
        have := abs_eq_zero.mp habs
        linarith [sub_eq_zero.mp this]
      have hkj : p.1 ≠ j := by
        intro hcontr
        exact hne5 _ hx ((Prod.mk.injEq _ _ _ _).mpr ⟨heq0, hcontr⟩)
      exact ⟨lt_of_le_of_ne hle hkj, by rw [hgetD, hval]⟩
  have hsub : (((timeDiffSorted times j).take 5).map Prod.snd) ⊆
      (List.range j).filter fun k => times.getD k 0 = times.getD j 0 := by
    intro k hk
    obtain ⟨x, hx, rfl⟩ := List.mem_map.mp hk
    obtain ⟨h1, h2⟩ := hchar x hx
    exact List.mem_filter.mpr ⟨List.mem_range.mpr h1, decide_eq_true h2⟩
  have hnodup_take : (((timeDiffSorted times j).take 5).map Prod.snd).Nodup := by
    rw [List.map_take]
    exact hnodupSsnd.sublist (List.take_sublist _ _)
  have hlen_take : (((timeDiffSorted times j).take 5).map Prod.snd).length = 5 := by
    rw [List.length_map, htake5]
  have hle5 := (List.subperm_of_subset hnodup_take hsub).length_le
  omega

/-- Witness for the amended C6: in a three-frame group with distinct
times 10, 20, 30, frame 1 is among its own sky-selection, and the
selection has `min 5 3 = 3` entries. -/
theorem sky_selection_self_included_witness :
    1 ∈ skySelection [10, 20, 30] 1 ∧
    (skySelection [10, 20, 30] 1).length = min 5 ([(10 : ℚ), 20, 30] : List ℚ).length :=
  sky_selection_self_included [10, 20, 30] 1 (by decide) (by decide)

/-- C6 (counterexample): in a six-frame group whose observation times are
all equal, the sky selection for the last frame (index 5) is `[0, 1, 2,
3, 4]` — frame 5 itself, time difference 0, is *not* among the five
selected frames, because five earlier frames tie at difference 0 and the
index tie-break pushes `(0, 5)` out. -/
theorem sky_selection_excludes_self_counterexample :
    skySelection (List.replicate 6 0) 5 = [0, 1, 2, 3, 4] ∧
    5 ∉ skySelection (List.replicate 6 0) 5 := by
  decide

end Claims

end ImagingPipelines
